import Mathlib

/-!
Verification of the release-sync action (GitHub/Gitee release synchronizer).

The development shallowly embeds the program's core:
* the JavaScript string normalization used on the `platforms` input
  (`src/index.js`),
* the asset resolver `resolveAssetFiles` (`src/utils/fileHandler.js`),
* the simple GitHub adapter `publishGitHubRelease` (`src/platforms/github.js`),
* the reconciling Gitee adapter `publishGiteeRelease`
  (`src/platforms/gitee.js`),
* the orchestrator `main` (`src/index.js`).

External collaborators (HTTP endpoints, the glob library, the filesystem) are
modelled as explicit environment records; each adapter returns the ordered
trace of outbound API calls it issued together with its outcome
(`Except` models a thrown/re-thrown JavaScript error).
-/

deriving instance DecidableEq for Except

namespace ReleaseSync

/-! ## JavaScript string primitives -/

/-- Whitespace test covering the characters the action's inputs can contain
(space, tab, newline, carriage return); models the whitespace class used by
JavaScript's `trim` and the `\s` split in the file handler. -/
def isWsChar (c : Char) : Bool := c = ' ' || c = '\t' || c = '\n' || c = '\r'

/-- Drop leading and trailing whitespace from a character list. -/
def trimChars (l : List Char) : List Char :=
  ((l.dropWhile isWsChar).reverse.dropWhile isWsChar).reverse

/-- Models `String.prototype.trim`. -/
def jsTrim (s : String) : String := ⟨trimChars s.data⟩

/-- Models `String.prototype.toLowerCase` on the basic-latin identifiers the
action handles, via Lean's `Char.toLower`. -/
def jsToLowerCase (s : String) : String := ⟨s.data.map Char.toLower⟩

/-- Helper for `jsSplit`: the accumulator holds the current field in
reverse. -/
def splitOnCharAux (sep : Char) : List Char → List Char → List (List Char)
  | [], cur => [cur.reverse]
  | c :: rest, cur =>
    if c = sep then cur.reverse :: splitOnCharAux sep rest []
    else splitOnCharAux sep rest (c :: cur)

/-- Models `String.prototype.split` with a one-character separator:
`"a,b".split(',') = ["a","b"]`, `"".split(',') = [""]`. -/
def jsSplit (sep : Char) (s : String) : List String :=
  (splitOnCharAux sep s.data []).map (fun l => ⟨l⟩)

/-- `src/index.js` lines 31-34: the `platforms` input is split on commas, each
entry is trimmed and lowercased, and falsy (empty) entries are dropped:
`.split(',').map(item => item.trim().toLowerCase()).filter(Boolean)`. -/
def parsePlatforms (s : String) : List String :=
  ((jsSplit ',' s).map (fun item => jsToLowerCase (jsTrim item))).filter
    (fun x => decide (x ≠ ""))

/-! ## File handler (`src/utils/fileHandler.js`) -/

/-- What `getFileInfo` returns for one readable file: base name, byte size and
raw content (content abstracted as a byte list). -/
structure FileInfo where
  name : String
  size : Nat
  content : List Nat
  deriving DecidableEq

/-- The filesystem/glob state the asset resolver consults: the matches the
glob library returns for a pattern (`glob.sync(pattern, {absolute: true,
nodir: true})`) and per-path existence (`fsExtra.existsSync`). -/
structure FS where
  globMatches : String → List String
  pathExists : String → Bool

/-- Splits raw asset input into maximal non-whitespace runs; models the
composite `assetInput.split(/\s+/).map(item => item.trim()).filter(Boolean)`
of `resolveAssetFiles` (tokens contain no whitespace, so the per-token trim is
the identity, and empty tokens are exactly the ones `filter(Boolean)` drops).
The second argument accumulates the current token in reverse. -/
def splitWsRuns : List Char → List Char → List String
  | [], cur => if cur.isEmpty then [] else [⟨cur.reverse⟩]
  | c :: rest, cur =>
    if isWsChar c then
      (if cur.isEmpty then splitWsRuns rest [] else ⟨cur.reverse⟩ :: splitWsRuns rest [])
    else splitWsRuns rest (c :: cur)

/-- `resolveAssetFiles`: on falsy input return `[]`; otherwise split the input
into patterns, expand each with the glob collaborator (`flatMap`), then keep a
resolved path iff it exists on disk and this is its first occurrence — the JS
filter `self.indexOf(filePath) === index && existsSync(filePath)` (paths that
do not exist, and later duplicates, are dropped with a warning). -/
def resolveAssetFiles (fs : FS) (assetInput : String) : List String :=
  if assetInput = "" then []
  else
    let assetPatterns := splitWsRuns assetInput.data []
    let allMatches := assetPatterns.flatMap fs.globMatches
    (allMatches.enum.filter (fun ip =>
      fs.pathExists ip.2 && (allMatches.indexOf ip.2 == ip.1))).map Prod.snd

/-! ## Simple adapter (`src/platforms/github.js`) -/

/-- Repository coordinates taken from the ambient GitHub Actions execution
context (`github.context.repo`). -/
structure GHContext where
  owner : String
  repo : String

/-- The destructured options object of `publishGitHubRelease`. It has no
owner/repository field: those come from the ambient context only. -/
structure GHOptions where
  token : String
  tag : String
  releaseName : String
  body : String
  draft : Bool
  prerelease : Bool
  assetFiles : List String

/-- Outbound GitHub API calls the simple adapter can issue. -/
inductive GHCall where
  | createRelease (owner repo tag name body : String) (draft prerelease : Bool)
  | uploadReleaseAsset (owner repo : String) (releaseId : Nat) (name : String)
      (content : List Nat)
  deriving DecidableEq

/-- The external world seen by one run of the simple adapter: the result of
the release-create call, the file handler (`getFileInfo`, which returns `none`
on any read error and never throws), and the result of each asset's upload
call, keyed by the asset's path. -/
structure GHEnv where
  createResult : Except String Nat
  fileInfo : String → Option FileInfo
  uploadResult : String → Except String Unit

/-- The simple adapter's asset loop (`github.js` lines 76-105): fetch the file
info; a failed read (`!fileInfo`) skips the asset with a warning and
continues; otherwise issue the upload call.  The upload call is *not* wrapped
in a per-asset handler, so a failed upload propagates out of the loop: the
remaining assets are not processed. -/
def ghUploadLoop (env : GHEnv) (ctx : GHContext) (releaseId : Nat) :
    List String → List GHCall × Except String Unit
  | [] => ([], .ok ())
  | filePath :: rest =>
    match env.fileInfo filePath with
    | none => ghUploadLoop env ctx releaseId rest
    | some fi =>
      let call := GHCall.uploadReleaseAsset ctx.owner ctx.repo releaseId fi.name fi.content
      match env.uploadResult filePath with
      | .ok _ =>
        let next := ghUploadLoop env ctx releaseId rest
        (call :: next.1, next.2)
      | .error e => ([call], .error e)

/-- `publishGitHubRelease`: create the release from tag/name/body/draft/
prerelease under the ambient context's owner/repo, then run the sequential
asset loop.  Any uncaught error — a creation failure or an upload-call
failure — reaches the function's catch block, which logs it, marks the run
failed and re-throws (modelled as `.error`).  On success the created release's
data (its id) is returned. -/
def publishGitHubRelease (env : GHEnv) (ctx : GHContext) (opts : GHOptions) :
    List GHCall × Except String Nat :=
  let createCall := GHCall.createRelease ctx.owner ctx.repo opts.tag
    opts.releaseName opts.body opts.draft opts.prerelease
  match env.createResult with
  | .error e => ([createCall], .error e)
  | .ok releaseId =>
    if opts.assetFiles.length > 0 then
      let run := ghUploadLoop env ctx releaseId opts.assetFiles
      (createCall :: run.1,
        match run.2 with | .ok _ => .ok releaseId | .error e => .error e)
    else ([createCall], .ok releaseId)

/-! ## Reconciling adapter (`src/platforms/gitee.js`) -/

/-- Three-way outcome of the tag probe `GET /tags/{tag}`: the request
succeeded (tag found), it failed with HTTP 404 (`error.response.status ===
404`, an explicit absence signal), or it failed any other way (other status,
network error, timeout). -/
inductive ProbeResult where
  | found
  | notFound
  | failed (e : String)
  deriving DecidableEq

/-- The destructured options object of `publishGiteeRelease`. -/
structure GiteeOptions where
  token : String
  owner : String
  repo : String
  tag : String
  releaseName : String
  body : String
  prerelease : Bool
  targetCommitish : String
  assetFiles : List String

/-- Outbound Gitee API calls the reconciling adapter can issue. -/
inductive GiteeCall where
  | getTag (owner repo tag : String)
  | createTag (owner repo tag refs : String)
  | createRelease (owner repo tag name body : String) (prerelease : Bool)
      (targetCommitish : String)
  | getReleaseByTag (owner repo tag : String)
  | attachFile (owner repo : String) (releaseId : Nat) (name : String) (size : Nat)
  deriving DecidableEq

/-- The external world seen by one run of the reconciling adapter: the probe
outcome, the results of tag creation, release creation and the release-by-tag
lookup (`.ok none` = the lookup responded but without a usable `id` field),
the file handler, and each asset's upload-call result keyed by path. -/
structure GiteeEnv where
  getTagResult : ProbeResult
  createTagResult : Except String Unit
  createReleaseResult : Except String Unit
  getReleaseResult : Except String (Option Nat)
  fileInfo : String → Option FileInfo
  uploadResult : String → Except String Unit

/-- Per-run asset counters of the reconciling adapter (`successCount`,
`skipCount`, `failCount` in `gitee.js`). -/
structure UploadStats where
  uploaded : Nat
  skipped : Nat
  failed : Nat
  deriving DecidableEq

/-- Phase A of `publishGiteeRelease` (`gitee.js` lines 44-86): probe the tag.
A successful probe skips tag creation; a 404 sends one tag-create call with
`refs` set to the request's `targetCommitish` (whose own failure propagates);
any other probe failure is re-thrown without attempting tag creation. -/
def giteePhaseA (env : GiteeEnv) (opts : GiteeOptions) :
    List GiteeCall × Except String Unit :=
  let probe := GiteeCall.getTag opts.owner opts.repo opts.tag
  match env.getTagResult with
  | .found => ([probe], .ok ())
  | .notFound =>
    let ct := GiteeCall.createTag opts.owner opts.repo opts.tag opts.targetCommitish
    match env.createTagResult with
    | .ok _ => ([probe, ct], .ok ())
    | .error e => ([probe, ct], .error e)
  | .failed e => ([probe], .error e)

/-- Phase D loop of `publishGiteeRelease` (`gitee.js` lines 160-207): for each
asset, fetch its file info — `none` increments the skip counter and continues;
otherwise issue the upload call inside the per-iteration handler — a failed
call increments the fail counter and continues, a successful one increments
the success counter.  The loop never aborts. -/
def giteeUploadLoop (env : GiteeEnv) (owner repo : String) (releaseId : Nat) :
    List String → List GiteeCall × UploadStats
  | [] => ([], ⟨0, 0, 0⟩)
  | filePath :: rest =>
    match env.fileInfo filePath with
    | none =>
      let next := giteeUploadLoop env owner repo releaseId rest
      (next.1, { next.2 with skipped := next.2.skipped + 1 })
    | some fi =>
      let call := GiteeCall.attachFile owner repo releaseId fi.name fi.size
      let next := giteeUploadLoop env owner repo releaseId rest
      match env.uploadResult filePath with
      | .ok _ => (call :: next.1, { next.2 with uploaded := next.2.uploaded + 1 })
      | .error _ => (call :: next.1, { next.2 with failed := next.2.failed + 1 })

/-- `publishGiteeRelease`: phase A (tag reconciliation), then an unconditional
release-create call whose failure is re-thrown, then — only when the asset
list is non-empty — the release-id lookup (`GET /releases/tags/{tag}`; a
response without an `id` raises `Failed to retrieve a valid Release ID from
Gitee API response`, and any lookup failure is re-thrown) followed by the
phase-D upload loop, whose counters form the run's summary. -/
def publishGiteeRelease (env : GiteeEnv) (opts : GiteeOptions) :
    List GiteeCall × Except String UploadStats :=
  match giteePhaseA env opts with
  | (trA, .error e) => (trA, .error e)
  | (trA, .ok _) =>
    let cr := GiteeCall.createRelease opts.owner opts.repo opts.tag
      opts.releaseName opts.body opts.prerelease opts.targetCommitish
    match env.createReleaseResult with
    | .error e => (trA ++ [cr], .error e)
    | .ok _ =>
      if opts.assetFiles.length > 0 then
        let gl := GiteeCall.getReleaseByTag opts.owner opts.repo opts.tag
        match env.getReleaseResult with
        | .error e => (trA ++ [cr, gl], .error e)
        | .ok none =>
          (trA ++ [cr, gl],
            .error "Failed to retrieve a valid Release ID from Gitee API response")
        | .ok (some releaseId) =>
          let run := giteeUploadLoop env opts.owner opts.repo releaseId opts.assetFiles
          (trA ++ [cr, gl] ++ run.1, .ok run.2)
      else (trA ++ [cr], .ok ⟨0, 0, 0⟩)

/-! ## Orchestrator (`src/index.js`) -/

/-- The action's inputs as `core.getInput` delivers them: strings, with `""`
for an absent optional input (GitHub Actions' representation of "missing"),
plus the two boolean inputs. -/
structure Inputs where
  platforms : String
  tag : String
  releaseName : String
  releaseBody : String
  draft : Bool
  prerelease : Bool
  assetFilesInput : String
  githubToken : String
  giteeToken : String
  giteeOwner : String
  giteeRepo : String
  giteeTargetCommitish : String

/-- One observable step of the orchestrator's execution phase: an adapter
invocation for a platform, or an outbound API call made by an adapter. -/
inductive RunEvent where
  | invoke (platform : String)
  | ghCall (c : GHCall)
  | geCall (c : GiteeCall)
  deriving DecidableEq

/-- The step-2 validation loop of `main` (`index.js` lines 70-94): walk the
parsed platform list; an unsupported name (`!platforms[platform]`), a GitHub
entry without `github-token`, or a Gitee entry missing any of `gitee-token`/
`gitee-owner`/`gitee-repo` stops the whole run with that error (`setFailed`
then `return`), before any adapter is invoked.  `none` = validation passed. -/
def validatePlatforms (inputs : Inputs) : List String → Option String
  | [] => none
  | p :: rest =>
    if ¬(p = "github" ∨ p = "gitee") then some ("Unsupported platform: " ++ p)
    else if p = "github" ∧ inputs.githubToken = "" then
      some "GitHub platform is specified, but required github-token is missing."
    else if p = "gitee" ∧ (inputs.giteeToken = "" ∨ inputs.giteeOwner = "" ∨
        inputs.giteeRepo = "") then
      some "Gitee platform is specified, but some required parameters are missing."
    else validatePlatforms inputs rest

/-- The options object `main` passes to the GitHub adapter
(`index.js` lines 108-116). -/
def ghOptsOf (inputs : Inputs) (assetFiles : List String) : GHOptions :=
  ⟨inputs.githubToken, inputs.tag, inputs.releaseName, inputs.releaseBody,
    inputs.draft, inputs.prerelease, assetFiles⟩

/-- The options object `main` passes to the Gitee adapter
(`index.js` lines 121-131). -/
def geOptsOf (inputs : Inputs) (assetFiles : List String) : GiteeOptions :=
  ⟨inputs.giteeToken, inputs.giteeOwner, inputs.giteeRepo, inputs.tag,
    inputs.releaseName, inputs.releaseBody, inputs.prerelease,
    inputs.giteeTargetCommitish, assetFiles⟩

/-- The step-3 execution loop of `main` (`index.js` lines 103-142): process
the validated platforms strictly in order, one at a time.  A platform's
adapter is awaited; if it throws, control jumps to `main`'s catch block
(`setFailed`) and no further platform is processed.  The `default` switch arm
(unreachable after validation) logs a warning and skips the entry. -/
def runPlatforms (ghEnv : GHEnv) (geEnv : GiteeEnv) (ctx : GHContext)
    (inputs : Inputs) (assetFiles : List String) :
    List String → List RunEvent × Except String Unit
  | [] => ([], .ok ())
  | p :: rest =>
    if p = "github" then
      let r := publishGitHubRelease ghEnv ctx (ghOptsOf inputs assetFiles)
      match r.2 with
      | .error e => (RunEvent.invoke p :: r.1.map RunEvent.ghCall, .error e)
      | .ok _ =>
        let next := runPlatforms ghEnv geEnv ctx inputs assetFiles rest
        (RunEvent.invoke p :: r.1.map RunEvent.ghCall ++ next.1, next.2)
    else if p = "gitee" then
      let r := publishGiteeRelease geEnv (geOptsOf inputs assetFiles)
      match r.2 with
      | .error e => (RunEvent.invoke p :: r.1.map RunEvent.geCall, .error e)
      | .ok _ =>
        let next := runPlatforms ghEnv geEnv ctx inputs assetFiles rest
        (RunEvent.invoke p :: r.1.map RunEvent.geCall ++ next.1, next.2)
    else runPlatforms ghEnv geEnv ctx inputs assetFiles rest

/-- `main` (`src/index.js`): parse and normalize the platform list, resolve
the asset patterns (filesystem only, no network), validate every requested
platform, and only then run the adapters in order.  A validation error or an
adapter's thrown error makes the run fail (`core.setFailed`). -/
def mainRun (fs : FS) (ghEnv : GHEnv) (geEnv : GiteeEnv) (ctx : GHContext)
    (inputs : Inputs) : List RunEvent × Except String Unit :=
  let syncPlatforms := parsePlatforms inputs.platforms
  let assetFiles := resolveAssetFiles fs inputs.assetFilesInput
  match validatePlatforms inputs syncPlatforms with
  | some msg => ([], .error msg)
  | none => runPlatforms ghEnv geEnv ctx inputs assetFiles syncPlatforms

/-! ## Trace observations -/

/-- Is this call a tag-create call? -/
def GiteeCall.isCreateTag : GiteeCall → Bool
  | .createTag .. => true
  | _ => false

/-- Is this call a release-by-tag lookup? -/
def GiteeCall.isLookup : GiteeCall → Bool
  | .getReleaseByTag .. => true
  | _ => false

/-- Is this call an asset-upload (attach-file) call? -/
def GiteeCall.isAttach : GiteeCall → Bool
  | .attachFile .. => true
  | _ => false

/-- Is this call an asset-upload call of the simple adapter? -/
def GHCall.isUpload : GHCall → Bool
  | .uploadReleaseAsset .. => true
  | _ => false

/-- The owner coordinate a simple-adapter call was addressed to. -/
def GHCall.callOwner : GHCall → String
  | .createRelease owner .. => owner
  | .uploadReleaseAsset owner .. => owner

/-- The repository coordinate a simple-adapter call was addressed to. -/
def GHCall.callRepo : GHCall → String
  | .createRelease _ repo .. => repo
  | .uploadReleaseAsset _ repo .. => repo

/-- The platform of an invocation event, if the event is one. -/
def RunEvent.invokedName : RunEvent → Option String
  | .invoke p => some p
  | _ => none

/-- The ordered list of platforms whose adapters the orchestrator invoked. -/
def invokedPlatforms (events : List RunEvent) : List String :=
  events.filterMap RunEvent.invokedName

/-! ## Helper lemmas: simple adapter -/

lemma ghUploadLoop_ctx (env : GHEnv) (ctx : GHContext) (releaseId : Nat) :
    ∀ files : List String, ∀ c ∈ (ghUploadLoop env ctx releaseId files).1,
      c.callOwner = ctx.owner ∧ c.callRepo = ctx.repo := by
  intro files
  induction files with
  | nil => simp [ghUploadLoop]
  | cons f rest ih =>
    intro c hc
    cases hf : env.fileInfo f with
    | none =>
      simp only [ghUploadLoop, hf] at hc
      exact ih c hc
    | some fi =>
      cases hu : env.uploadResult f with
      | ok u =>
        simp only [ghUploadLoop, hf, hu, List.mem_cons] at hc
        rcases hc with rfl | hc
        · exact ⟨rfl, rfl⟩
        · exact ih c hc
      | error e =>
        simp only [ghUploadLoop, hf, hu, List.mem_cons, List.not_mem_nil,
          or_false] at hc
        subst hc
        exact ⟨rfl, rfl⟩

/-! ## C1: per-asset failure behavior of the simple adapter -/

/-- Concrete environment for C1: release creation succeeds, every asset's
file is readable, and the upload call for the asset at path `"b"` fails. -/
def ghEnvC1 : GHEnv where
  createResult := .ok 1
  fileInfo := fun p => some ⟨p, 1, [0]⟩
  uploadResult := fun p => if p = "b" then .error "upload failed" else .ok ()

/-- Concrete request for C1: three assets `a`, `b`, `c`. -/
def ghOptsC1 : GHOptions := ⟨"tok", "v1", "rel", "", false, false, ["a", "b", "c"]⟩

/-- Concrete ambient context for the simple-adapter scenarios. -/
def ghCtxC1 : GHContext := ⟨"own", "repo"⟩

/-- C1 counterexample: with three readable assets whose second upload call
fails, the simple adapter issues the create call and exactly two upload calls —
the third asset is never attempted — and the run ends fatally, refuting the
claim that one asset's upload failure does not stop subsequent uploads. -/
theorem c1_counterexample :
    (publishGitHubRelease ghEnvC1 ghCtxC1 ghOptsC1).1 =
      [GHCall.createRelease "own" "repo" "v1" "rel" "" false false,
       GHCall.uploadReleaseAsset "own" "repo" 1 "a" [0],
       GHCall.uploadReleaseAsset "own" "repo" 1 "b" [0]] ∧
    (publishGitHubRelease ghEnvC1 ghCtxC1 ghOptsC1).2 = .error "upload failed" := by
  decide

/-- C1 amended: in the simple adapter's asset loop, a failed file read is
skipped and the loop continues with the remaining assets, but a failed upload
call is not caught per-asset: the loop stops at that asset's single upload
call, and the error propagates so that the whole adapter run is fatal. -/
theorem c1_amended (env : GHEnv) (ctx : GHContext) (releaseId : Nat)
    (filePath : String) (rest : List String) :
    (env.fileInfo filePath = none →
      ghUploadLoop env ctx releaseId (filePath :: rest) =
        ghUploadLoop env ctx releaseId rest) ∧
    (∀ fi e, env.fileInfo filePath = some fi →
      env.uploadResult filePath = .error e →
      ghUploadLoop env ctx releaseId (filePath :: rest) =
        ([GHCall.uploadReleaseAsset ctx.owner ctx.repo releaseId fi.name fi.content],
          .error e)) ∧
    (∀ opts e, opts.assetFiles.length > 0 → env.createResult = .ok releaseId →
      (ghUploadLoop env ctx releaseId opts.assetFiles).2 = .error e →
      (publishGitHubRelease env ctx opts).2 = .error e) := by
  refine ⟨fun h => ?_, fun fi e h1 h2 => ?_, fun opts e hn hc hl => ?_⟩
  · simp [ghUploadLoop, h]
  · simp [ghUploadLoop, h1, h2]
  · simp only [publishGitHubRelease, hc, hn, if_true]
    rw [hl]

/-- C1 amended, witnessed at concrete inputs: a skipped read at `"a"`
continues the loop, the failing upload at `"b"` truncates it, and the loop
failure is the adapter's failure. -/
theorem c1_amended_witness :
    (ghUploadLoop ⟨.ok 1, fun _ => none, fun _ => .ok ()⟩ ghCtxC1 1 ["a"] =
      ghUploadLoop ⟨.ok 1, fun _ => none, fun _ => .ok ()⟩ ghCtxC1 1 []) ∧
    (ghUploadLoop ghEnvC1 ghCtxC1 1 ["b", "c"] =
      ([GHCall.uploadReleaseAsset "own" "repo" 1 "b" [0]], .error "upload failed")) ∧
    (publishGitHubRelease ghEnvC1 ghCtxC1 ghOptsC1).2 = .error "upload failed" := by
  refine ⟨(c1_amended ⟨.ok 1, fun _ => none, fun _ => .ok ()⟩ ghCtxC1 1 "a" []).1 rfl,
    (c1_amended ghEnvC1 ghCtxC1 1 "b" ["c"]).2.1 ⟨"b", 1, [0]⟩ "upload failed"
      (by decide) (by decide),
    (c1_amended ghEnvC1 ghCtxC1 1 "a" []).2.2 ghOptsC1 "upload failed"
      (by decide) (by decide) (by decide)⟩

/-! ## C10: the simple adapter addresses calls from the ambient context -/

/-- C10: every API call the simple adapter issues carries the owner and
repository of the ambient execution context (`github.context.repo`),
whatever the adapter's options object contains — the `GHOptions` input has no
owner/repository field at all. -/
theorem c10_ambient_context (env : GHEnv) (ctx : GHContext) (opts : GHOptions) :
    ∀ c ∈ (publishGitHubRelease env ctx opts).1,
      c.callOwner = ctx.owner ∧ c.callRepo = ctx.repo := by
  intro c hc
  cases hcr : env.createResult with
  | error e =>
    simp only [publishGitHubRelease, hcr, List.mem_cons, List.not_mem_nil,
      or_false] at hc
    subst hc
    exact ⟨rfl, rfl⟩
  | ok releaseId =>
    by_cases hn : opts.assetFiles.length > 0
    · simp only [publishGitHubRelease, hcr, hn, if_true, List.mem_cons] at hc
      rcases hc with rfl | hc
      · exact ⟨rfl, rfl⟩
      · exact ghUploadLoop_ctx env ctx releaseId opts.assetFiles c hc
    · simp only [publishGitHubRelease, hcr, hn, if_false, List.mem_cons,
        List.not_mem_nil, or_false] at hc
      subst hc
      exact ⟨rfl, rfl⟩

/-- C10 witnessed on a concrete run: the create call of the C1 environment is
addressed to the context's coordinates. -/
theorem c10_ambient_context_witness :
    (GHCall.createRelease "own" "repo" "v1" "rel" "" false false).callOwner =
      ghCtxC1.owner ∧
    (GHCall.createRelease "own" "repo" "v1" "rel" "" false false).callRepo =
      ghCtxC1.repo :=
  c10_ambient_context ghEnvC1 ghCtxC1 ghOptsC1
    (GHCall.createRelease "own" "repo" "v1" "rel" "" false false) (by decide)

/-! ## Helper lemmas: reconciling adapter -/

lemma giteeUploadLoop_all_attach (env : GiteeEnv) (o r : String) (i : Nat) :
    ∀ files : List String, ∀ c ∈ (giteeUploadLoop env o r i files).1,
      c.isAttach = true := by
  intro files
  induction files with
  | nil => simp [giteeUploadLoop]
  | cons f rest ih =>
    intro c hc
    cases hf : env.fileInfo f with
    | none =>
      simp only [giteeUploadLoop, hf] at hc
      exact ih c hc
    | some fi =>
      cases hu : env.uploadResult f with
      | ok u =>
        simp only [giteeUploadLoop, hf, hu, List.mem_cons] at hc
        rcases hc with rfl | hc
        · rfl
        · exact ih c hc
      | error e =>
        simp only [giteeUploadLoop, hf, hu, List.mem_cons] at hc
        rcases hc with rfl | hc
        · rfl
        · exact ih c hc

lemma giteeUploadLoop_countP_createTag (env : GiteeEnv) (o r : String) (i : Nat)
    (files : List String) :
    (giteeUploadLoop env o r i files).1.countP GiteeCall.isCreateTag = 0 := by
  rw [List.countP_eq_zero]
  intro c hc
  have h := giteeUploadLoop_all_attach env o r i files c hc
  cases c <;> simp_all [GiteeCall.isAttach, GiteeCall.isCreateTag]

lemma giteeUploadLoop_countP_lookup (env : GiteeEnv) (o r : String) (i : Nat)
    (files : List String) :
    (giteeUploadLoop env o r i files).1.countP GiteeCall.isLookup = 0 := by
  rw [List.countP_eq_zero]
  intro c hc
  have h := giteeUploadLoop_all_attach env o r i files c hc
  cases c <;> simp_all [GiteeCall.isAttach, GiteeCall.isLookup]

lemma giteeUploadLoop_count_attach (env : GiteeEnv) (o r : String) (i : Nat) :
    ∀ files : List String,
      (giteeUploadLoop env o r i files).1.countP GiteeCall.isAttach =
        files.countP (fun p => (env.fileInfo p).isSome) := by
  intro files
  induction files with
  | nil => simp [giteeUploadLoop]
  | cons f rest ih =>
    cases hf : env.fileInfo f with
    | none => simp [giteeUploadLoop, hf, List.countP_cons, ih]
    | some fi =>
      cases hu : env.uploadResult f with
      | ok u =>
        simp [giteeUploadLoop, hf, hu, List.countP_cons, ih, GiteeCall.isAttach]
      | error e =>
        simp [giteeUploadLoop, hf, hu, List.countP_cons, ih, GiteeCall.isAttach]

lemma giteeUploadLoop_stats (env : GiteeEnv) (o r : String) (i : Nat) :
    ∀ files : List String,
      (giteeUploadLoop env o r i files).2.uploaded +
        (giteeUploadLoop env o r i files).2.skipped +
        (giteeUploadLoop env o r i files).2.failed = files.length := by
  intro files
  induction files with
  | nil => simp [giteeUploadLoop]
  | cons f rest ih =>
    cases hf : env.fileInfo f with
    | none =>
      simp only [giteeUploadLoop, hf, List.length_cons]
      omega
    | some fi =>
      cases hu : env.uploadResult f with
      | ok u =>
        simp only [giteeUploadLoop, hf, hu, List.length_cons]
        omega
      | error e =>
        simp only [giteeUploadLoop, hf, hu, List.length_cons]
        omega

lemma giteePhaseA_calls (env : GiteeEnv) (opts : GiteeOptions) :
    ∀ c ∈ (giteePhaseA env opts).1, c.isLookup = false ∧ c.isAttach = false := by
  intro c hc
  cases ht : env.getTagResult with
  | found =>
    simp only [giteePhaseA, ht, List.mem_cons, List.not_mem_nil, or_false] at hc
    subst hc
    exact ⟨rfl, rfl⟩
  | notFound =>
    cases hct : env.createTagResult with
    | ok u =>
      simp only [giteePhaseA, ht, hct, List.mem_cons, List.not_mem_nil,
        or_false] at hc
      rcases hc with rfl | rfl <;> exact ⟨rfl, rfl⟩
    | error e =>
      simp only [giteePhaseA, ht, hct, List.mem_cons, List.not_mem_nil,
        or_false] at hc
      rcases hc with rfl | rfl <;> exact ⟨rfl, rfl⟩
  | failed e =>
    simp only [giteePhaseA, ht, List.mem_cons, List.not_mem_nil, or_false] at hc
    subst hc
    exact ⟨rfl, rfl⟩

lemma publishGitee_countP_createTag (env : GiteeEnv) (opts : GiteeOptions) :
    (publishGiteeRelease env opts).1.countP GiteeCall.isCreateTag =
      (giteePhaseA env opts).1.countP GiteeCall.isCreateTag := by
  rcases hA : giteePhaseA env opts with ⟨trA, rA⟩
  cases rA with
  | error e => simp [publishGiteeRelease, hA]
  | ok u =>
    cases hcr : env.createReleaseResult with
    | error e =>
      simp [publishGiteeRelease, hA, hcr, List.countP_append,
        List.countP_cons, GiteeCall.isCreateTag]
    | ok v =>
      by_cases hn : opts.assetFiles.length > 0
      · cases hgl : env.getReleaseResult with
        | error e =>
          simp [publishGiteeRelease, hA, hcr, hn, hgl, List.countP_append,
            List.countP_cons, GiteeCall.isCreateTag]
        | ok oid =>
          cases oid with
          | none =>
            simp [publishGiteeRelease, hA, hcr, hn, hgl, List.countP_append,
              List.countP_cons, GiteeCall.isCreateTag]
          | some rid =>
            simp [publishGiteeRelease, hA, hcr, hn, hgl, List.countP_append,
              List.countP_cons, GiteeCall.isCreateTag,
              giteeUploadLoop_countP_createTag]
      · simp [publishGiteeRelease, hA, hcr, hn, List.countP_append,
          List.countP_cons, GiteeCall.isCreateTag]

lemma publishGitee_trace_mem_phaseA (env : GiteeEnv) (opts : GiteeOptions)
    (c : GiteeCall) (hc : c ∈ (giteePhaseA env opts).1) :
    c ∈ (publishGiteeRelease env opts).1 := by
  rcases hA : giteePhaseA env opts with ⟨trA, rA⟩
  rw [hA] at hc
  change c ∈ trA at hc
  cases rA with
  | error e => simpa [publishGiteeRelease, hA] using hc
  | ok u =>
    cases hcr : env.createReleaseResult with
    | error e =>
      simp [publishGiteeRelease, hA, hcr, List.mem_append, hc]
    | ok v =>
      by_cases hn : opts.assetFiles.length > 0
      · cases hgl : env.getReleaseResult with
        | error e =>
          simp [publishGiteeRelease, hA, hcr, hn, hgl, List.mem_append, hc]
        | ok oid =>
          cases oid with
          | none =>
            simp [publishGiteeRelease, hA, hcr, hn, hgl, List.mem_append, hc]
          | some rid =>
            simp [publishGiteeRelease, hA, hcr, hn, hgl, List.mem_append, hc]
      · simp [publishGiteeRelease, hA, hcr, hn, List.mem_append, hc]

/-! ## C3: the tag probe decides the tag-reconciliation outcome -/

/-- C3: in the reconciling adapter, a found tag leads to zero tag-create
calls; a 404 probe leads to exactly one tag-create call anchored at the
request's `targetCommitish`; any other probe failure aborts the run after the
single probe call — zero tag-create calls — with that error as the run's fatal
outcome. -/
theorem c3_probe_decides_reconciliation (env : GiteeEnv) (opts : GiteeOptions) :
    (env.getTagResult = .found →
      (publishGiteeRelease env opts).1.countP GiteeCall.isCreateTag = 0) ∧
    (env.getTagResult = .notFound →
      (publishGiteeRelease env opts).1.countP GiteeCall.isCreateTag = 1 ∧
      GiteeCall.createTag opts.owner opts.repo opts.tag opts.targetCommitish ∈
        (publishGiteeRelease env opts).1) ∧
    (∀ e, env.getTagResult = .failed e →
      (publishGiteeRelease env opts).1 =
        [GiteeCall.getTag opts.owner opts.repo opts.tag] ∧
      (publishGiteeRelease env opts).2 = .error e) := by
  refine ⟨fun h => ?_, fun h => ⟨?_, ?_⟩, fun e h => ?_⟩
  · rw [publishGitee_countP_createTag]
    simp [giteePhaseA, h, List.countP_cons, GiteeCall.isCreateTag]
  · rw [publishGitee_countP_createTag]
    cases hct : env.createTagResult with
    | ok u =>
      simp [giteePhaseA, h, hct, List.countP_cons, GiteeCall.isCreateTag]
    | error e =>
      simp [giteePhaseA, h, hct, List.countP_cons, GiteeCall.isCreateTag]
  · apply publishGitee_trace_mem_phaseA
    cases hct : env.createTagResult with
    | ok u => simp [giteePhaseA, h, hct]
    | error e => simp [giteePhaseA, h, hct]
  · have hA : giteePhaseA env opts =
        ([GiteeCall.getTag opts.owner opts.repo opts.tag], .error e) := by
      simp [giteePhaseA, h]
    constructor
    · simp [publishGiteeRelease, hA]
    · simp [publishGiteeRelease, hA]

/-- Concrete environment witnessing C3: the probe reports 404, tag creation
succeeds, the rest of the run succeeds with no assets. -/
def geEnvC3 : GiteeEnv where
  getTagResult := .notFound
  createTagResult := .ok ()
  createReleaseResult := .ok ()
  getReleaseResult := .ok (some 5)
  fileInfo := fun _ => none
  uploadResult := fun _ => .ok ()

/-- Concrete request used by the reconciling-adapter witnesses. -/
def geOptsC3 : GiteeOptions :=
  ⟨"tok", "own", "repo", "v1", "rel", "", false, "master", []⟩

/-- C3 witnessed: on the 404 probe the concrete run issues exactly one
tag-create call, anchored at `"master"`. -/
theorem c3_probe_decides_reconciliation_witness :
    (publishGiteeRelease geEnvC3 geOptsC3).1.countP GiteeCall.isCreateTag = 1 ∧
    GiteeCall.createTag "own" "repo" "v1" "master" ∈
      (publishGiteeRelease geEnvC3 geOptsC3).1 :=
  (c3_probe_decides_reconciliation geEnvC3 geOptsC3).2.1 (by decide)

/-! ## C4: the release-identifier lookup happens only for a non-empty asset list -/

/-- Concrete environment for the C4 counterexample: the tag is found, release
creation succeeds, and the request carries an empty asset list. -/
def geEnvC4 : GiteeEnv where
  getTagResult := .found
  createTagResult := .ok ()
  createReleaseResult := .ok ()
  getReleaseResult := .ok (some 9)
  fileInfo := fun _ => none
  uploadResult := fun _ => .ok ()

/-- C4 counterexample: this run completes release creation (it even succeeds
overall), yet issues zero release-by-tag lookup calls, refuting the claim that
every invocation completing release creation performs the identifier lookup
including when the asset list is empty. -/
theorem c4_counterexample :
    (publishGiteeRelease geEnvC4 geOptsC3).2 = .ok ⟨0, 0, 0⟩ ∧
    (publishGiteeRelease geEnvC4 geOptsC3).1.countP GiteeCall.isLookup = 0 := by
  decide

/-- C4 amended: when tag reconciliation and release creation succeed, the
reconciling adapter performs the release-identifier lookup exactly when the
asset list is non-empty — exactly one lookup call, placed after the phase-A/B
calls and before every upload call — and skips it entirely on an empty asset
list; when the lookup is performed, a response without an identifier is fatal
with the adapter's dedicated error. -/
theorem c4_amended (env : GiteeEnv) (opts : GiteeOptions)
    (hA : (giteePhaseA env opts).2 = .ok ())
    (hB : env.createReleaseResult = .ok ()) :
    (opts.assetFiles = [] →
      (publishGiteeRelease env opts).1.countP GiteeCall.isLookup = 0) ∧
    (opts.assetFiles ≠ [] →
      ∃ pre post, (publishGiteeRelease env opts).1 =
          pre ++ GiteeCall.getReleaseByTag opts.owner opts.repo opts.tag :: post ∧
        pre.countP GiteeCall.isLookup = 0 ∧ pre.countP GiteeCall.isAttach = 0 ∧
        ∀ c ∈ post, c.isAttach = true) ∧
    (opts.assetFiles ≠ [] → env.getReleaseResult = .ok none →
      (publishGiteeRelease env opts).2 =
        .error "Failed to retrieve a valid Release ID from Gitee API response") := by
  rcases hAeq : giteePhaseA env opts with ⟨trA, rA⟩
  rw [hAeq] at hA
  change rA = .ok () at hA
  subst hA
  have hApre : trA.countP GiteeCall.isLookup = 0 ∧
      trA.countP GiteeCall.isAttach = 0 := by
    constructor <;> rw [List.countP_eq_zero] <;> intro c hc <;>
      have h := giteePhaseA_calls env opts c (by rw [hAeq]; exact hc) <;>
      simp [h.1, h.2]
  refine ⟨fun hnil => ?_, fun hne => ?_, fun hne hid => ?_⟩
  · have hn : ¬opts.assetFiles.length > 0 := by simp [hnil]
    simp [publishGiteeRelease, hAeq, hB, hn, List.countP_append,
      List.countP_cons, GiteeCall.isLookup, hApre.1]
  · have hn : opts.assetFiles.length > 0 := by
      cases hfs : opts.assetFiles with
      | nil => exact absurd hfs hne
      | cons a l => simp [hfs]
    cases hgl : env.getReleaseResult with
    | error e =>
      refine ⟨trA ++ [GiteeCall.createRelease opts.owner opts.repo opts.tag
        opts.releaseName opts.body opts.prerelease opts.targetCommitish], [], ?_, ?_, ?_, ?_⟩
      · simp [publishGiteeRelease, hAeq, hB, hn, hgl]
      · simp [List.countP_append, List.countP_cons, GiteeCall.isLookup, hApre.1]
      · simp [List.countP_append, List.countP_cons, GiteeCall.isAttach, hApre.2]
      · simp
    | ok oid =>
      cases oid with
      | none =>
        refine ⟨trA ++ [GiteeCall.createRelease opts.owner opts.repo opts.tag
          opts.releaseName opts.body opts.prerelease opts.targetCommitish], [], ?_, ?_, ?_, ?_⟩
        · simp [publishGiteeRelease, hAeq, hB, hn, hgl]
        · simp [List.countP_append, List.countP_cons, GiteeCall.isLookup, hApre.1]
        · simp [List.countP_append, List.countP_cons, GiteeCall.isAttach, hApre.2]
        · simp
      | some rid =>
        refine ⟨trA ++ [GiteeCall.createRelease opts.owner opts.repo opts.tag
          opts.releaseName opts.body opts.prerelease opts.targetCommitish],
          (giteeUploadLoop env opts.owner opts.repo rid opts.assetFiles).1, ?_, ?_, ?_, ?_⟩
        · simp [publishGiteeRelease, hAeq, hB, hn, hgl]
        · simp [List.countP_append, List.countP_cons, GiteeCall.isLookup, hApre.1]
        · simp [List.countP_append, List.countP_cons, GiteeCall.isAttach, hApre.2]
        · exact giteeUploadLoop_all_attach env opts.owner opts.repo rid opts.assetFiles
  · have hn : opts.assetFiles.length > 0 := by
      cases hfs : opts.assetFiles with
      | nil => exact absurd hfs hne
      | cons a l => simp [hfs]
    simp [publishGiteeRelease, hAeq, hB, hn, hid]

/-- Concrete environment for the C4 witness: assets present but the lookup
response carries no identifier. -/
def geEnvC4w : GiteeEnv where
  getTagResult := .found
  createTagResult := .ok ()
  createReleaseResult := .ok ()
  getReleaseResult := .ok none
  fileInfo := fun p => some ⟨p, 1, [0]⟩
  uploadResult := fun _ => .ok ()

/-- Concrete request with one asset for the C4 witness. -/
def geOptsC4w : GiteeOptions :=
  ⟨"tok", "own", "repo", "v1", "rel", "", false, "master", ["a"]⟩

/-- C4 amended, witnessed: with an empty asset list the concrete run makes no
lookup call, and with one asset but an id-less lookup response the run fails
with the dedicated error. -/
theorem c4_amended_witness :
    (publishGiteeRelease geEnvC4 geOptsC3).1.countP GiteeCall.isLookup = 0 ∧
    (publishGiteeRelease geEnvC4w geOptsC4w).2 =
      .error "Failed to retrieve a valid Release ID from Gitee API response" :=
  ⟨(c4_amended geEnvC4 geOptsC3 (by decide) (by decide)).1 (by decide),
   (c4_amended geEnvC4w geOptsC4w (by decide) (by decide)).2.2 (by decide) (by decide)⟩

/-! ## C5: the upload counters partition the asset list -/

/-- C5: whenever a reconciling-adapter run completes non-fatally, its final
counters satisfy `uploaded + skipped + failed = number of assets`: every loop
iteration increments exactly one of the three counters. -/
theorem c5_counters_partition (env : GiteeEnv) (opts : GiteeOptions)
    (stats : UploadStats)
    (h : (publishGiteeRelease env opts).2 = .ok stats) :
    stats.uploaded + stats.skipped + stats.failed = opts.assetFiles.length := by
  rcases hAeq : giteePhaseA env opts with ⟨trA, rA⟩
  cases rA with
  | error e => simp [publishGiteeRelease, hAeq] at h
  | ok u =>
    cases hcr : env.createReleaseResult with
    | error e => simp [publishGiteeRelease, hAeq, hcr] at h
    | ok v =>
      by_cases hn : opts.assetFiles.length > 0
      · cases hgl : env.getReleaseResult with
        | error e => simp [publishGiteeRelease, hAeq, hcr, hn, hgl] at h
        | ok oid =>
          cases oid with
          | none => simp [publishGiteeRelease, hAeq, hcr, hn, hgl] at h
          | some rid =>
            simp only [publishGiteeRelease, hAeq, hcr, hn, hgl, if_true,
              Except.ok.injEq] at h
            subst h
            exact giteeUploadLoop_stats env opts.owner opts.repo rid opts.assetFiles
      · simp only [publishGiteeRelease, hAeq, hcr, hn, if_false,
          Except.ok.injEq] at h
        subst h
        simp at hn
        simp [hn]

/-- Concrete environment for the C5 witness: of four assets, one is
unreadable, one upload fails, two succeed. -/
def geEnvC5 : GiteeEnv where
  getTagResult := .notFound
  createTagResult := .ok ()
  createReleaseResult := .ok ()
  getReleaseResult := .ok (some 5)
  fileInfo := fun p => if p = "skipme" then none else some ⟨p, 1, [0]⟩
  uploadResult := fun p => if p = "bad" then .error "x" else .ok ()

/-- Concrete request with four assets for the C5/C6 witnesses. -/
def geOptsC5 : GiteeOptions :=
  ⟨"tok", "own", "repo", "v1", "rel", "", false, "master", ["a", "skipme", "bad", "d"]⟩

/-- C5 witnessed: the concrete run ends with counters 2/1/1 over 4 assets. -/
theorem c5_counters_partition_witness :
    (2 : Nat) + 1 + 1 = geOptsC5.assetFiles.length :=
  c5_counters_partition geEnvC5 geOptsC5 ⟨2, 1, 1⟩ (by decide)

/-! ## C6: the upload loop never aborts and per-asset failures are not fatal -/

/-- C6: the reconciling adapter's upload loop attempts an upload call for
every readable asset no matter how earlier reads or uploads fared; when phases
A-C succeed (tag reconciliation, release creation, and — if assets are present
— an identifier-yielding lookup), the run's outcome is non-fatal whatever the
per-asset results are; and a fatal outcome can only originate in phase A, B or
C. -/
theorem c6_loop_never_aborts (env : GiteeEnv) (opts : GiteeOptions) :
    (∀ (o r : String) (i : Nat) (files : List String),
      (giteeUploadLoop env o r i files).1.countP GiteeCall.isAttach =
        files.countP (fun p => (env.fileInfo p).isSome)) ∧
    ((giteePhaseA env opts).2 = .ok () → env.createReleaseResult = .ok () →
      (opts.assetFiles = [] ∨ ∃ rid, env.getReleaseResult = .ok (some rid)) →
      ∃ stats, (publishGiteeRelease env opts).2 = .ok stats) ∧
    (∀ e, (publishGiteeRelease env opts).2 = .error e →
      (giteePhaseA env opts).2 = .error e ∨ env.createReleaseResult = .error e ∨
      env.getReleaseResult = .error e ∨ (env.getReleaseResult = .ok none ∧
        e = "Failed to retrieve a valid Release ID from Gitee API response")) := by
  refine ⟨fun o r i files => giteeUploadLoop_count_attach env o r i files,
    fun hA hB hC => ?_, fun e h => ?_⟩
  · rcases hAeq : giteePhaseA env opts with ⟨trA, rA⟩
    rw [hAeq] at hA
    change rA = .ok () at hA
    subst hA
    rcases hC with hnil | ⟨rid, hgl⟩
    · have hn : ¬opts.assetFiles.length > 0 := by simp [hnil]
      exact ⟨⟨0, 0, 0⟩, by simp [publishGiteeRelease, hAeq, hB, hn]⟩
    · by_cases hn : opts.assetFiles.length > 0
      · exact ⟨(giteeUploadLoop env opts.owner opts.repo rid opts.assetFiles).2,
          by simp [publishGiteeRelease, hAeq, hB, hn, hgl]⟩
      · exact ⟨⟨0, 0, 0⟩, by simp [publishGiteeRelease, hAeq, hB, hn]⟩
  · rcases hAeq : giteePhaseA env opts with ⟨trA, rA⟩
    cases rA with
    | error e2 =>
      have hpub : (publishGiteeRelease env opts).2 = .error e2 := by
        simp [publishGiteeRelease, hAeq]
      rw [hpub] at h
      injection h with h2
      subst h2
      exact Or.inl rfl
    | ok u =>
      cases hcr : env.createReleaseResult with
      | error e2 =>
        have hpub : (publishGiteeRelease env opts).2 = .error e2 := by
          simp [publishGiteeRelease, hAeq, hcr]
        rw [hpub] at h
        injection h with h2
        subst h2
        exact Or.inr (Or.inl rfl)
      | ok v =>
        by_cases hn : opts.assetFiles.length > 0
        · cases hgl : env.getReleaseResult with
          | error e2 =>
            have hpub : (publishGiteeRelease env opts).2 = .error e2 := by
              simp [publishGiteeRelease, hAeq, hcr, hn, hgl]
            rw [hpub] at h
            injection h with h2
            subst h2
            exact Or.inr (Or.inr (Or.inl rfl))
          | ok oid =>
            cases oid with
            | none =>
              have hpub : (publishGiteeRelease env opts).2 = .error
                  "Failed to retrieve a valid Release ID from Gitee API response" := by
                simp [publishGiteeRelease, hAeq, hcr, hn, hgl]
              rw [hpub] at h
              injection h with h2
              subst h2
              exact Or.inr (Or.inr (Or.inr ⟨rfl, rfl⟩))
            | some rid =>
              have : (publishGiteeRelease env opts).2 =
                  .ok (giteeUploadLoop env opts.owner opts.repo rid opts.assetFiles).2 := by
                simp [publishGiteeRelease, hAeq, hcr, hn, hgl]
              rw [this] at h
              exact absurd h (by simp)
        · have : (publishGiteeRelease env opts).2 = .ok ⟨0, 0, 0⟩ := by
            simp [publishGiteeRelease, hAeq, hcr, hn]
          rw [this] at h
          exact absurd h (by simp)

/-- C6 witnessed: in the concrete mixed run (one unreadable asset, one failing
upload) the loop still issues an upload call for all three readable assets and
the overall outcome is non-fatal. -/
theorem c6_loop_never_aborts_witness :
    (giteeUploadLoop geEnvC5 "own" "repo" 5 geOptsC5.assetFiles).1.countP
        GiteeCall.isAttach =
      geOptsC5.assetFiles.countP (fun p => (geEnvC5.fileInfo p).isSome) ∧
    ∃ stats, (publishGiteeRelease geEnvC5 geOptsC5).2 = .ok stats :=
  ⟨(c6_loop_never_aborts geEnvC5 geOptsC5).1 "own" "repo" 5 geOptsC5.assetFiles,
   (c6_loop_never_aborts geEnvC5 geOptsC5).2.1 (by decide) (by decide)
     (Or.inr ⟨5, by decide⟩)⟩

/-! ## Helper lemmas: orchestrator -/

/-- A requested platform entry that the step-2 validation rejects: an
unsupported identifier, a GitHub entry without its token, or a Gitee entry
missing one of its three required fields. -/
def platformMisconfigured (inputs : Inputs) (p : String) : Prop :=
  ¬(p = "github" ∨ p = "gitee") ∨ (p = "github" ∧ inputs.githubToken = "") ∨
    (p = "gitee" ∧ (inputs.giteeToken = "" ∨ inputs.giteeOwner = "" ∨
      inputs.giteeRepo = ""))

lemma validate_some_of_bad (inputs : Inputs) :
    ∀ (ps : List String) (p : String), p ∈ ps → platformMisconfigured inputs p →
      ∃ msg, validatePlatforms inputs ps = some msg := by
  intro ps
  induction ps with
  | nil => intro p hp; simp at hp
  | cons q rest ih =>
    intro p hp hbad
    simp only [validatePlatforms]
    by_cases hsup : q = "github" ∨ q = "gitee"
    · rw [if_neg (not_not_intro hsup)]
      by_cases h2 : q = "github" ∧ inputs.githubToken = ""
      · rw [if_pos h2]
        exact ⟨_, rfl⟩
      · rw [if_neg h2]
        by_cases h3 : q = "gitee" ∧ (inputs.giteeToken = "" ∨
            inputs.giteeOwner = "" ∨ inputs.giteeRepo = "")
        · rw [if_pos h3]
          exact ⟨_, rfl⟩
        · rw [if_neg h3]
          rcases List.mem_cons.mp hp with rfl | hp2
          · exfalso
            rcases hbad with h | h | h
            · exact h hsup
            · exact h2 h
            · exact h3 h
          · exact ih p hp2 hbad
    · rw [if_pos hsup]
      exact ⟨_, rfl⟩

/-! ## C2: pre-flight validation is all-or-nothing -/

/-- C2: if any requested platform is unknown or lacks a required
configuration field, the whole run fails during validation: the event trace is
empty — no adapter was invoked and no adapter API call was made, for any
platform in the set, including ones listed before the bad entry. -/
theorem c2_preflight_all_or_nothing (fs : FS) (ghEnv : GHEnv) (geEnv : GiteeEnv)
    (ctx : GHContext) (inputs : Inputs) (p : String)
    (hmem : p ∈ parsePlatforms inputs.platforms)
    (hbad : platformMisconfigured inputs p) :
    (mainRun fs ghEnv geEnv ctx inputs).1 = [] ∧
    ∃ msg, (mainRun fs ghEnv geEnv ctx inputs).2 = .error msg := by
  obtain ⟨msg, hv⟩ :=
    validate_some_of_bad inputs (parsePlatforms inputs.platforms) p hmem hbad
  refine ⟨by simp [mainRun, hv], msg, by simp [mainRun, hv]⟩

/-- Concrete filesystem with no files, for the orchestrator witnesses. -/
def fsEmpty : FS := ⟨fun _ => [], fun _ => false⟩

/-- Concrete inputs requesting `github,gitee` where the Gitee token is
missing (empty), while GitHub is fully configured. -/
def inputsC2 : Inputs :=
  ⟨"github,gitee", "v1", "rel", "", false, false, "", "ghtok", "", "own", "repo", "master"⟩

/-- C2 witnessed: with `gitee` requested but its token missing, the concrete
run produces zero events — the fully configured `github` entry listed first is
not run either. -/
theorem c2_preflight_all_or_nothing_witness :
    (mainRun fsEmpty ghEnvC1 geEnvC5 ghCtxC1 inputsC2).1 = [] ∧
    ∃ msg, (mainRun fsEmpty ghEnvC1 geEnvC5 ghCtxC1 inputsC2).2 = .error msg :=
  c2_preflight_all_or_nothing fsEmpty ghEnvC1 geEnvC5 ghCtxC1 inputsC2 "gitee"
    (by decide) (Or.inr (Or.inr ⟨rfl, Or.inl rfl⟩))

/-! ## C7: strict order, stop on first fatal error -/

lemma invokedPlatforms_ghCalls (tr : List GHCall) :
    invokedPlatforms (tr.map RunEvent.ghCall) = [] := by
  induction tr with
  | nil => rfl
  | cons c rest ih =>
    simp_all [invokedPlatforms, List.filterMap_cons, RunEvent.invokedName]

lemma invokedPlatforms_geCalls (tr : List GiteeCall) :
    invokedPlatforms (tr.map RunEvent.geCall) = [] := by
  induction tr with
  | nil => rfl
  | cons c rest ih =>
    simp_all [invokedPlatforms, List.filterMap_cons, RunEvent.invokedName]

lemma filterMap_invoked_comp_ghCall (tr : List GHCall) :
    tr.filterMap (RunEvent.invokedName ∘ RunEvent.ghCall) = [] := by
  induction tr with
  | nil => rfl
  | cons c rest ih =>
    simp_all [List.filterMap_cons, RunEvent.invokedName, Function.comp]

lemma filterMap_invoked_comp_geCall (tr : List GiteeCall) :
    tr.filterMap (RunEvent.invokedName ∘ RunEvent.geCall) = [] := by
  induction tr with
  | nil => rfl
  | cons c rest ih =>
    simp_all [List.filterMap_cons, RunEvent.invokedName, Function.comp]

lemma invokedPlatforms_append (a b : List RunEvent) :
    invokedPlatforms (a ++ b) = invokedPlatforms a ++ invokedPlatforms b :=
  List.filterMap_append a b RunEvent.invokedName

/-- The outcome the configured environments give platform `p`'s adapter:
`some e` when that adapter's run would throw `e`, `none` when it would succeed
or when `p` matches no adapter arm (the unreachable `default` case, which
invokes nothing). -/
def adapterFatal (ghEnv : GHEnv) (geEnv : GiteeEnv) (ctx : GHContext)
    (inputs : Inputs) (assetFiles : List String) (p : String) : Option String :=
  if p = "github" then
    match (publishGitHubRelease ghEnv ctx (ghOptsOf inputs assetFiles)).2 with
    | .error e => some e
    | .ok _ => none
  else if p = "gitee" then
    match (publishGiteeRelease geEnv (geOptsOf inputs assetFiles)).2 with
    | .error e => some e
    | .ok _ => none
  else none

/-- The API-call events platform `p`'s adapter contributes to the run trace. -/
def adapterEvents (ghEnv : GHEnv) (geEnv : GiteeEnv) (ctx : GHContext)
    (inputs : Inputs) (assetFiles : List String) (p : String) : List RunEvent :=
  if p = "github" then
    (publishGitHubRelease ghEnv ctx (ghOptsOf inputs assetFiles)).1.map
      RunEvent.ghCall
  else if p = "gitee" then
    (publishGiteeRelease geEnv (geOptsOf inputs assetFiles)).1.map RunEvent.geCall
  else []

lemma invokedPlatforms_adapterEvents (ghEnv : GHEnv) (geEnv : GiteeEnv)
    (ctx : GHContext) (inputs : Inputs) (assetFiles : List String) (p : String) :
    invokedPlatforms (adapterEvents ghEnv geEnv ctx inputs assetFiles p) = [] := by
  unfold adapterEvents
  by_cases h1 : p = "github"
  · simp [h1, invokedPlatforms_ghCalls]
  · by_cases h2 : p = "gitee"
    · simp [h1, h2, invokedPlatforms_geCalls]
    · simp [h1, h2, invokedPlatforms]

lemma invokedPlatforms_cons_invoke (q : String) (evs : List RunEvent) :
    invokedPlatforms (RunEvent.invoke q :: evs) = q :: invokedPlatforms evs := by
  simp [invokedPlatforms, List.filterMap_cons, RunEvent.invokedName]

lemma runPlatforms_cons_ok (ghEnv : GHEnv) (geEnv : GiteeEnv) (ctx : GHContext)
    (inputs : Inputs) (assetFiles : List String) (q : String) (rest : List String)
    (hsup : q = "github" ∨ q = "gitee")
    (hok : adapterFatal ghEnv geEnv ctx inputs assetFiles q = none) :
    runPlatforms ghEnv geEnv ctx inputs assetFiles (q :: rest) =
      (RunEvent.invoke q :: adapterEvents ghEnv geEnv ctx inputs assetFiles q ++
        (runPlatforms ghEnv geEnv ctx inputs assetFiles rest).1,
       (runPlatforms ghEnv geEnv ctx inputs assetFiles rest).2) := by
  rcases hsup with rfl | rfl
  · cases hr : (publishGitHubRelease ghEnv ctx (ghOptsOf inputs assetFiles)).2 with
    | error e => simp [adapterFatal, hr] at hok
    | ok v => simp [runPlatforms, hr, adapterEvents]
  · cases hr : (publishGiteeRelease geEnv (geOptsOf inputs assetFiles)).2 with
    | error e => simp [adapterFatal, hr] at hok
    | ok v => simp [runPlatforms, hr, adapterEvents]

lemma runPlatforms_cons_fatal (ghEnv : GHEnv) (geEnv : GiteeEnv)
    (ctx : GHContext) (inputs : Inputs) (assetFiles : List String)
    (q : String) (e : String) (rest : List String)
    (hf : adapterFatal ghEnv geEnv ctx inputs assetFiles q = some e) :
    runPlatforms ghEnv geEnv ctx inputs assetFiles (q :: rest) =
      (RunEvent.invoke q :: adapterEvents ghEnv geEnv ctx inputs assetFiles q,
        .error e) := by
  by_cases h1 : q = "github"
  · subst h1
    cases hr : (publishGitHubRelease ghEnv ctx (ghOptsOf inputs assetFiles)).2 with
    | error e2 =>
      have he : e2 = e := by
        simp [adapterFatal, hr] at hf
        exact hf
      subst he
      simp [runPlatforms, hr, adapterEvents]
    | ok v => simp [adapterFatal, hr] at hf
  · by_cases h2 : q = "gitee"
    · subst h2
      cases hr : (publishGiteeRelease geEnv (geOptsOf inputs assetFiles)).2 with
      | error e2 =>
        have he : e2 = e := by
          simp [adapterFatal, hr] at hf
          exact hf
        subst he
        simp [runPlatforms, h1, hr, adapterEvents]
      | ok v => simp [adapterFatal, hr] at hf
    · simp [adapterFatal, h1, h2] at hf

/-- C7: the orchestrator's execution loop processes platforms strictly in the
requested order, one at a time.  When every requested adapter succeeds, the
invoked-platform sequence is exactly the requested list, in order, and the run
ends non-fatally.  When the adapters before some platform `p` succeed and
`p`'s adapter raises a fatal error — whichever adapter `p` names, at whatever
position — the run with any platforms after `p` is *identical* to the run
that ends at `p`: the whole trace (the completed platforms' work, reported
unchanged — nothing rolled back — plus `p`'s invocation and calls) and the
fatal outcome do not depend on the tail, so no subsequent platform's adapter
is ever invoked; in particular on `[gitee, github]` a fatal reconciling
adapter means the simple adapter never runs. -/
theorem c7_order_and_fatal_stop (ghEnv : GHEnv) (geEnv : GiteeEnv)
    (ctx : GHContext) (inputs : Inputs) (assetFiles : List String) :
    (∀ names : List String, (∀ q ∈ names, q = "github" ∨ q = "gitee") →
      (∀ q ∈ names, adapterFatal ghEnv geEnv ctx inputs assetFiles q = none) →
      invokedPlatforms
        (runPlatforms ghEnv geEnv ctx inputs assetFiles names).1 = names ∧
      (runPlatforms ghEnv geEnv ctx inputs assetFiles names).2 = .ok ()) ∧
    (∀ (pre : List String) (p : String) (post : List String) (e : String),
      (∀ q ∈ pre, q = "github" ∨ q = "gitee") →
      (∀ q ∈ pre, adapterFatal ghEnv geEnv ctx inputs assetFiles q = none) →
      adapterFatal ghEnv geEnv ctx inputs assetFiles p = some e →
      runPlatforms ghEnv geEnv ctx inputs assetFiles (pre ++ p :: post) =
        runPlatforms ghEnv geEnv ctx inputs assetFiles (pre ++ [p]) ∧
      (runPlatforms ghEnv geEnv ctx inputs assetFiles (pre ++ p :: post)).2 =
        .error e ∧
      invokedPlatforms
        (runPlatforms ghEnv geEnv ctx inputs assetFiles (pre ++ p :: post)).1 =
        pre ++ [p]) := by
  constructor
  · intro names
    induction names with
    | nil => exact fun _ _ => ⟨rfl, rfl⟩
    | cons q rest ih =>
      intro hsup hok
      have hstep := runPlatforms_cons_ok ghEnv geEnv ctx inputs assetFiles q rest
        (hsup q (List.mem_cons_self q rest)) (hok q (List.mem_cons_self q rest))
      obtain ⟨ih1, ih2⟩ := ih (fun r hr => hsup r (List.mem_cons_of_mem _ hr))
        (fun r hr => hok r (List.mem_cons_of_mem _ hr))
      rw [hstep]
      refine ⟨?_, ?_⟩
      · show invokedPlatforms (RunEvent.invoke q ::
          (adapterEvents ghEnv geEnv ctx inputs assetFiles q ++
            (runPlatforms ghEnv geEnv ctx inputs assetFiles rest).1)) = q :: rest
        rw [invokedPlatforms_cons_invoke, invokedPlatforms_append,
          invokedPlatforms_adapterEvents, List.nil_append, ih1]
      · show (runPlatforms ghEnv geEnv ctx inputs assetFiles rest).2 = .ok ()
        exact ih2
  · intro pre
    induction pre with
    | nil =>
      intro p post e _ _ hf
      have h1 := runPlatforms_cons_fatal ghEnv geEnv ctx inputs assetFiles
        p e post hf
      have h2 := runPlatforms_cons_fatal ghEnv geEnv ctx inputs assetFiles
        p e [] hf
      refine ⟨?_, ?_, ?_⟩
      · rw [List.nil_append, List.nil_append, h1, h2]
      · rw [List.nil_append, h1]
      · rw [List.nil_append, h1]
        show invokedPlatforms (RunEvent.invoke p ::
          adapterEvents ghEnv geEnv ctx inputs assetFiles p) = [] ++ [p]
        rw [invokedPlatforms_cons_invoke, invokedPlatforms_adapterEvents]
        rfl
    | cons q pre2 ih =>
      intro p post e hsup hok hf
      have hstep1 := runPlatforms_cons_ok ghEnv geEnv ctx inputs assetFiles q
        (pre2 ++ p :: post) (hsup q (List.mem_cons_self q pre2))
        (hok q (List.mem_cons_self q pre2))
      have hstep2 := runPlatforms_cons_ok ghEnv geEnv ctx inputs assetFiles q
        (pre2 ++ [p]) (hsup q (List.mem_cons_self q pre2))
        (hok q (List.mem_cons_self q pre2))
      obtain ⟨ih1, ih2, ih3⟩ := ih p post e
        (fun r hr => hsup r (List.mem_cons_of_mem _ hr))
        (fun r hr => hok r (List.mem_cons_of_mem _ hr)) hf
      refine ⟨?_, ?_, ?_⟩
      · rw [List.cons_append, List.cons_append, hstep1, hstep2, ih1]
      · rw [List.cons_append, hstep1]
        show (runPlatforms ghEnv geEnv ctx inputs assetFiles
          (pre2 ++ p :: post)).2 = .error e
        exact ih2
      · rw [List.cons_append, hstep1]
        show invokedPlatforms (RunEvent.invoke q ::
          (adapterEvents ghEnv geEnv ctx inputs assetFiles q ++
            (runPlatforms ghEnv geEnv ctx inputs assetFiles
              (pre2 ++ p :: post)).1)) =
          (q :: pre2) ++ [p]
        rw [invokedPlatforms_cons_invoke, invokedPlatforms_append,
          invokedPlatforms_adapterEvents, List.nil_append, ih3]
        rfl

/-- Reconciling-adapter environment whose tag probe fails with a non-404
error, making its whole run fatal, for the C7 witness. -/
def geEnvFatal : GiteeEnv where
  getTagResult := .failed "network timeout"
  createTagResult := .ok ()
  createReleaseResult := .ok ()
  getReleaseResult := .ok (some 1)
  fileInfo := fun _ => none
  uploadResult := fun _ => .ok ()

/-- C7 witnessed both ways: on `[gitee, github]` with a fatal reconciling
adapter, the run fails with the probe's error and only `gitee` is ever
invoked — the simple adapter listed after it never runs; and on
`[github, gitee]` with both adapters succeeding, both are invoked in the
requested order. -/
theorem c7_order_and_fatal_stop_witness :
    ((runPlatforms ghEnvC1 geEnvFatal ghCtxC1 inputsC2 []
        ["gitee", "github"]).2 = .error "network timeout" ∧
      invokedPlatforms (runPlatforms ghEnvC1 geEnvFatal ghCtxC1 inputsC2 []
        ["gitee", "github"]).1 = ["gitee"]) ∧
    invokedPlatforms (runPlatforms ghEnvC1 geEnvC5 ghCtxC1 inputsC2 []
      ["github", "gitee"]).1 = ["github", "gitee"] :=
  ⟨⟨((c7_order_and_fatal_stop ghEnvC1 geEnvFatal ghCtxC1 inputsC2 []).2
        [] "gitee" ["github"] "network timeout"
        (fun q hq => absurd hq (List.not_mem_nil q))
        (fun q hq => absurd hq (List.not_mem_nil q)) (by decide)).2.1,
    ((c7_order_and_fatal_stop ghEnvC1 geEnvFatal ghCtxC1 inputsC2 []).2
        [] "gitee" ["github"] "network timeout"
        (fun q hq => absurd hq (List.not_mem_nil q))
        (fun q hq => absurd hq (List.not_mem_nil q)) (by decide)).2.2⟩,
   ((c7_order_and_fatal_stop ghEnvC1 geEnvC5 ghCtxC1 inputsC2 []).1
      ["github", "gitee"] (by decide) (by decide)).1⟩

/-! ## Helper lemmas: string normalization -/

lemma toNat_ofNat_valid (n : Nat) (h : n < 55296) : (Char.ofNat n).toNat = n := by
  rw [Char.ofNat, dif_pos (Or.inl h)]
  simp [Char.ofNatAux, Char.toNat, UInt32.toNat, BitVec.toNat_ofNatLt]

lemma toLower_toLower (c : Char) :
    Char.toLower (Char.toLower c) = Char.toLower c := by
  unfold Char.toLower
  by_cases h : 65 ≤ c.toNat ∧ c.toNat ≤ 90
  · rw [if_pos h]
    have h2 : (Char.ofNat (c.toNat + 32)).toNat = c.toNat + 32 :=
      toNat_ofNat_valid _ (by omega)
    rw [h2, if_neg (by omega)]
  · rw [if_neg h, if_neg h]

lemma ws_vals (c : Char) (h : isWsChar c = true) :
    c.toNat = 32 ∨ c.toNat = 9 ∨ c.toNat = 10 ∨ c.toNat = 13 := by
  simp only [isWsChar, Bool.or_eq_true, decide_eq_true_eq] at h
  rcases h with ((h | h) | h) | h <;> subst h <;> decide

lemma isWsChar_toLower (c : Char) : isWsChar (Char.toLower c) = isWsChar c := by
  unfold Char.toLower
  by_cases h : 65 ≤ c.toNat ∧ c.toNat ≤ 90
  · rw [if_pos h]
    have h2 : (Char.ofNat (c.toNat + 32)).toNat = c.toNat + 32 :=
      toNat_ofNat_valid _ (by omega)
    have hl : isWsChar (Char.ofNat (c.toNat + 32)) = false := by
      by_contra hc
      rw [Bool.not_eq_false] at hc
      have := ws_vals _ hc
      omega
    have hr : isWsChar c = false := by
      by_contra hc
      rw [Bool.not_eq_false] at hc
      have := ws_vals _ hc
      omega
    rw [hl, hr]
  · rw [if_neg h]

lemma dropWhile_eq_cons_not (p : Char → Bool) :
    ∀ (l : List Char) (x : Char) (xs : List Char),
      List.dropWhile p l = x :: xs → p x = false := by
  intro l
  induction l with
  | nil => intro x xs h; simp [List.dropWhile] at h
  | cons a l ih =>
    intro x xs h
    rw [List.dropWhile_cons] at h
    by_cases hp : p a = true
    · rw [if_pos hp] at h
      exact ih x xs h
    · rw [if_neg hp] at h
      cases h
      simpa using hp

lemma trimChars_eq_rdrop (l : List Char) :
    trimChars l = List.rdropWhile isWsChar (List.dropWhile isWsChar l) := rfl

lemma dropWhile_trimChars (l : List Char) :
    List.dropWhile isWsChar (trimChars l) = trimChars l := by
  rw [trimChars_eq_rdrop]
  cases h : List.rdropWhile isWsChar (List.dropWhile isWsChar l) with
  | nil => rfl
  | cons x xs =>
    have hpref := List.rdropWhile_prefix isWsChar (List.dropWhile isWsChar l)
    rw [h] at hpref
    obtain ⟨t, ht⟩ := hpref
    have hx : isWsChar x = false := by
      apply dropWhile_eq_cons_not isWsChar l x (xs ++ t)
      rw [← ht]
      rfl
    rw [List.dropWhile_cons, if_neg (by simp [hx])]

lemma trimChars_idem (l : List Char) : trimChars (trimChars l) = trimChars l := by
  conv_lhs => rw [trimChars_eq_rdrop, dropWhile_trimChars, trimChars_eq_rdrop,
    List.rdropWhile_idempotent]
  rw [trimChars_eq_rdrop]

lemma rdropWhile_map (p : Char → Bool) (f : Char → Char) (l : List Char) :
    List.rdropWhile p (l.map f) =
      (List.rdropWhile (fun a => p (f a)) l).map f := by
  simp only [List.rdropWhile, ← List.map_reverse, List.dropWhile_map]
  rfl

lemma trimChars_map_toLower (l : List Char) :
    trimChars (l.map Char.toLower) = (trimChars l).map Char.toLower := by
  have hlam : (fun a => isWsChar (Char.toLower a)) = isWsChar :=
    funext isWsChar_toLower
  have hcomp : (isWsChar ∘ Char.toLower) = isWsChar := funext isWsChar_toLower
  rw [trimChars_eq_rdrop, trimChars_eq_rdrop, List.dropWhile_map,
    rdropWhile_map, hlam, hcomp]

lemma map_toLower_idem (l : List Char) :
    (l.map Char.toLower).map Char.toLower = l.map Char.toLower := by
  rw [List.map_map]
  exact List.map_congr_left (fun c _ => toLower_toLower c)

lemma normalizeEntry_fixed (item : String) :
    jsToLowerCase (jsTrim (jsToLowerCase (jsTrim item))) =
      jsToLowerCase (jsTrim item) := by
  unfold jsToLowerCase jsTrim
  apply congrArg String.mk
  show ((trimChars ((trimChars item.data).map Char.toLower)).map Char.toLower) =
    (trimChars item.data).map Char.toLower
  rw [trimChars_map_toLower, trimChars_idem, map_toLower_idem]

lemma validatePlatforms_proj (i1 i2 : Inputs)
    (h1 : i1.githubToken = i2.githubToken) (h2 : i1.giteeToken = i2.giteeToken)
    (h3 : i1.giteeOwner = i2.giteeOwner) (h4 : i1.giteeRepo = i2.giteeRepo) :
    ∀ l, validatePlatforms i1 l = validatePlatforms i2 l := by
  intro l
  induction l with
  | nil => rfl
  | cons p rest ih =>
    simp only [validatePlatforms, h1, h2, h3, h4, ih]

lemma runPlatforms_platforms_irrel (ghEnv : GHEnv) (geEnv : GiteeEnv)
    (ctx : GHContext) (inputs : Inputs) (s2 : String) (assetFiles : List String) :
    ∀ names, runPlatforms ghEnv geEnv ctx { inputs with platforms := s2 }
        assetFiles names =
      runPlatforms ghEnv geEnv ctx inputs assetFiles names := by
  intro names
  induction names with
  | nil => rfl
  | cons p rest ih =>
    have hg : ghOptsOf { inputs with platforms := s2 } assetFiles =
        ghOptsOf inputs assetFiles := rfl
    have hge : geOptsOf { inputs with platforms := s2 } assetFiles =
        geOptsOf inputs assetFiles := rfl
    simp only [runPlatforms, ih, hg, hge]

/-! ## C9: platform-list normalization -/

/-- C9: the orchestrator normalizes the `platforms` input before validation
and dispatch — every parsed entry is non-empty and is a fixed point of
trim-then-lowercase; a mixed-case, whitespace- and stray-comma-laden input
parses to the plain lowercase names; and any two raw inputs that normalize to
the same platform list make `main` behave identically. -/
theorem c9_platform_normalization :
    (∀ s x, x ∈ parsePlatforms s → x ≠ "" ∧ jsToLowerCase (jsTrim x) = x) ∧
    parsePlatforms " GitHub ,,  gitee " = ["github", "gitee"] ∧
    (∀ (fs : FS) (ghEnv : GHEnv) (geEnv : GiteeEnv) (ctx : GHContext)
      (inputs : Inputs) (s2 : String),
      parsePlatforms s2 = parsePlatforms inputs.platforms →
      mainRun fs ghEnv geEnv ctx { inputs with platforms := s2 } =
        mainRun fs ghEnv geEnv ctx inputs) := by
  refine ⟨fun s x hx => ?_, by decide, fun fs ghEnv geEnv ctx inputs s2 h => ?_⟩
  · rw [parsePlatforms, List.mem_filter] at hx
    obtain ⟨hx1, hx2⟩ := hx
    obtain ⟨item, _, rfl⟩ := List.mem_map.mp hx1
    exact ⟨of_decide_eq_true hx2, normalizeEntry_fixed item⟩
  · show (match validatePlatforms { inputs with platforms := s2 }
        (parsePlatforms ({ inputs with platforms := s2 } : Inputs).platforms) with
      | some msg => (([] : List RunEvent), Except.error msg)
      | none => runPlatforms ghEnv geEnv ctx { inputs with platforms := s2 }
          (resolveAssetFiles fs ({ inputs with platforms := s2 } : Inputs).assetFilesInput)
          (parsePlatforms ({ inputs with platforms := s2 } : Inputs).platforms)) =
      mainRun fs ghEnv geEnv ctx inputs
    have hplat : ({ inputs with platforms := s2 } : Inputs).platforms = s2 := rfl
    rw [hplat, h,
      validatePlatforms_proj { inputs with platforms := s2 } inputs rfl rfl rfl rfl]
    show _ = (match validatePlatforms inputs (parsePlatforms inputs.platforms) with
      | some msg => (([] : List RunEvent), Except.error msg)
      | none => runPlatforms ghEnv geEnv ctx inputs
          (resolveAssetFiles fs inputs.assetFilesInput)
          (parsePlatforms inputs.platforms))
    cases hv : validatePlatforms inputs (parsePlatforms inputs.platforms) with
    | some msg => rfl
    | none =>
      exact runPlatforms_platforms_irrel ghEnv geEnv ctx inputs s2
        (resolveAssetFiles fs inputs.assetFilesInput)
        (parsePlatforms inputs.platforms)

/-- C9 witnessed: the entry parsed from `" GitHub"` is the lowercase fixed
point `"github"`, and feeding `main` the messy input `" GitHub ,,  gitee "`
behaves exactly like feeding it `"github,gitee"`. -/
theorem c9_platform_normalization_witness :
    ("github" ≠ "" ∧ jsToLowerCase (jsTrim "github") = "github") ∧
    mainRun fsEmpty ghEnvC1 geEnvC5 ghCtxC1
        { inputsC2 with platforms := " GitHub ,,  gitee " } =
      mainRun fsEmpty ghEnvC1 geEnvC5 ghCtxC1 inputsC2 :=
  ⟨c9_platform_normalization.1 " GitHub" "github" (by decide),
   c9_platform_normalization.2.2 fsEmpty ghEnvC1 geEnvC5 ghCtxC1 inputsC2
     " GitHub ,,  gitee " (by decide)⟩

/-! ## Helper lemmas: asset resolver -/

lemma dedup_filter_nodup (fs : FS) (all : List String) :
    ((all.enum.filter (fun ip =>
      fs.pathExists ip.2 && (all.indexOf ip.2 == ip.1))).map Prod.snd).Nodup := by
  have hl_sub : List.Sublist (all.enum.filter (fun ip =>
      fs.pathExists ip.2 && (all.indexOf ip.2 == ip.1))) all.enum :=
    List.filter_sublist _
  have henum : all.enum.Nodup := by
    apply List.Nodup.of_map Prod.fst
    rw [List.enum_map_fst]
    exact List.nodup_range _
  have hl_nodup := hl_sub.nodup henum
  apply List.Nodup.map_on _ hl_nodup
  intro x hx y hy hxy
  have hxq := (List.mem_filter.mp hx).2
  have hyq := (List.mem_filter.mp hy).2
  simp only [Bool.and_eq_true, beq_iff_eq] at hxq hyq
  obtain ⟨x1, x2⟩ := x
  obtain ⟨y1, y2⟩ := y
  simp only at hxy hxq hyq
  subst hxy
  rw [← hxq.2, ← hyq.2]

lemma dedup_filter_exists (fs : FS) (all : List String) :
    ∀ p ∈ (all.enum.filter (fun ip =>
      fs.pathExists ip.2 && (all.indexOf ip.2 == ip.1))).map Prod.snd,
      fs.pathExists p = true := by
  intro p hp
  obtain ⟨x, hx, rfl⟩ := List.mem_map.mp hp
  have hq := (List.mem_filter.mp hx).2
  simp only [Bool.and_eq_true, beq_iff_eq] at hq
  exact hq.1

lemma dedup_filter_sublist (fs : FS) (all : List String) :
    List.Sublist ((all.enum.filter (fun ip =>
      fs.pathExists ip.2 && (all.indexOf ip.2 == ip.1))).map Prod.snd) all := by
  have hl_sub : List.Sublist (all.enum.filter (fun ip =>
      fs.pathExists ip.2 && (all.indexOf ip.2 == ip.1))) all.enum :=
    List.filter_sublist _
  have := hl_sub.map Prod.snd
  rwa [List.enum_map_snd] at this

/-! ## C8: the resolver returns a deduplicated, existing, ordered list -/

/-- C8: for every filesystem/glob state and raw asset input, the resolver's
output has no repeated path, contains only paths that exist at resolution
time, and is an in-order selection (sublist) of the glob expansion of the
input's patterns — so its order is determined by the patterns and the glob
results, and its entries (absolute by the glob's `absolute: true`) come from
the glob collaborator; the resolver is total by construction and
deterministic: two filesystem states that agree pointwise yield the same
output.  Empty patterns and dropped paths never make it fail. -/
theorem c8_resolver_output (fs : FS) (assetInput : String) :
    (resolveAssetFiles fs assetInput).Nodup ∧
    (∀ p ∈ resolveAssetFiles fs assetInput, fs.pathExists p = true) ∧
    List.Sublist (resolveAssetFiles fs assetInput)
      ((splitWsRuns assetInput.data []).flatMap fs.globMatches) ∧
    (∀ fs2 : FS, (∀ pat, fs2.globMatches pat = fs.globMatches pat) →
      (∀ q, fs2.pathExists q = fs.pathExists q) →
      resolveAssetFiles fs2 assetInput = resolveAssetFiles fs assetInput) := by
  refine ⟨?_, ?_, ?_, fun fs2 h1 h2 => ?_⟩
  · by_cases h : assetInput = ""
    · simp [resolveAssetFiles, h]
    · simp only [resolveAssetFiles, if_neg h]
      exact dedup_filter_nodup fs _
  · by_cases h : assetInput = ""
    · simp [resolveAssetFiles, h]
    · simp only [resolveAssetFiles, if_neg h]
      exact dedup_filter_exists fs _
  · by_cases h : assetInput = ""
    · simp [resolveAssetFiles, h]
    · simp only [resolveAssetFiles, if_neg h]
      exact dedup_filter_sublist fs _
  · have hfs : fs2 = fs := by
      cases fs2
      cases fs
      congr 1
      · exact funext h1
      · exact funext h2
    rw [hfs]

/-- Concrete filesystem for the C8 witness: one pattern matches `/x/a` twice
and `/x/b` once, `/x/b` does not exist on disk. -/
def fsC8 : FS where
  globMatches := fun pat =>
    if pat = "dist/*" then ["/x/a", "/x/b", "/x/a"]
    else if pat = "one" then ["/x/c"] else []
  pathExists := fun p => p != "/x/b"

/-- C8 witnessed: on the concrete state, the retained path `/x/a` exists, and
a pointwise-identical filesystem state yields the identical output. -/
theorem c8_resolver_output_witness :
    fsC8.pathExists "/x/a" = true ∧
    resolveAssetFiles fsC8 "dist/* one nothing" =
      resolveAssetFiles fsC8 "dist/* one nothing" :=
  ⟨(c8_resolver_output fsC8 "dist/* one nothing").2.1 "/x/a" (by decide),
   (c8_resolver_output fsC8 "dist/* one nothing").2.2.2 fsC8
     (fun _ => rfl) (fun _ => rfl)⟩

end ReleaseSync

